import Mathlib

/-!
Verification development for the wolfram repository, package `api`: a client
binding for the Wolfram Alpha question-answering web API.  The repository's
substantive component is the response decoder: XML-tagged struct declarations
(`elements.go`, latest revision) that `encoding/xml` unmarshals into a
`Result` tree, the derived accessor `Result.PrimaryText` (`elements.go`,
middle revision, lines 523-534), and the `Image.Mime` helpers (`image.go`
and `elements.go`).

The embedding models:
  * the XML documents as the inductive `XmlNode`, together with an executable
    well-formedness parser `parseXml` (the repository itself contains no
    decoder entry point; `Decode` and its failure policy are modelled from
    the spec, as marked on each definition);
  * the element structs of the latest revision of `elements.go`
    (`Result`, `Pod`, `Subpod`, `Image`, `MathML`, `Error`, `Assumption`,
    `AssumptionValue`, `Source`, `Tip`, `ExamplePage`, `FutureTopic`,
    `LanguageMessage`, `Reinterpretation`), with Go `int` as `Int`,
    Go `string` as `String`, Go pointer-to-struct optionals as `Option`,
    and Go `float32` fields kept as the raw attribute text (no claim below
    depends on a numeric reading of a float field);
  * `Result.PrimaryText`, the two distinct `Image.Mime` implementations, and
    the decode functions induced by the structs' xml tags.
-/

namespace Wolfram

/-! ## XML documents -/

/-- One attribute of an XML element. -/
structure XmlAttr where
  name : String
  value : String
deriving DecidableEq, Repr

/-- A well-formed XML node: an element with attributes and children, or
character data.  This is the tree `encoding/xml` tokenizes a document into
(comments, processing instructions and CDATA sections do not occur in the
documents the claims are about and are outside the modelled fragment). -/
inductive XmlNode where
  | elem (name : String) (attrs : List XmlAttr) (children : List XmlNode)
  | text (content : String)

/-- Attributes of a node (empty for character data). -/
def XmlNode.attrs : XmlNode → List XmlAttr
  | .elem _ a _ => a
  | .text _ => []

/-- Children of a node (empty for character data). -/
def XmlNode.children : XmlNode → List XmlNode
  | .elem _ _ k => k
  | .text _ => []

/-- Element name of a node, if it is an element. -/
def XmlNode.name? : XmlNode → Option String
  | .elem n _ _ => some n
  | .text _ => none

/-! ## XML well-formedness parser

An executable parser for the XML fragment the API responses use: nested
elements with quoted attribute values, character data, self-closing tags and
the five predefined entities.  A malformed input (unterminated or mismatched
tag, bad attribute syntax, unknown entity, multiple roots, text outside the
root) parses to `none`. -/

/-- XML whitespace. -/
def isXmlSpace (c : Char) : Bool :=
  c = ' ' || c = '\t' || c = '\n' || c = '\r'

/-- Characters usable in element and attribute names. -/
def isNameChar (c : Char) : Bool :=
  c.isAlphanum || c = '_' || c = '-' || c = ':' || c = '.'

/-- Drop leading XML whitespace. -/
def skipWs : List Char → List Char
  | [] => []
  | c :: rest => if isXmlSpace c then skipWs rest else c :: rest

/-- Drop XML whitespace from both ends. -/
def trimWs (s : List Char) : List Char :=
  ((skipWs (skipWs s.reverse)).reverse)

/-- Split off the longest name prefix. -/
def takeName : List Char → List Char × List Char
  | [] => ([], [])
  | c :: rest =>
    if isNameChar c then
      let (n, r) := takeName rest
      (c :: n, r)
    else ([], c :: rest)

/-- The apostrophe character (the second XML attribute quote). -/
def aposChar : Char := Char.ofNat 39

/-- The five predefined XML entities, keyed by the text after the ampersand. -/
def entityTable : List (List Char × Char) :=
  [("amp;".data, '&'), ("lt;".data, '<'), ("gt;".data, '>'),
   ("apos;".data, aposChar), ("quot;".data, '"')]

/-- Recognize a predefined entity right after an ampersand, returning the
decoded character and the rest of the input. -/
def matchEntity (s : List Char) : Option (Char × List Char) :=
  entityTable.findSome? fun p =>
    if p.1.isPrefixOf s then some (p.2, s.drop p.1.length) else none

/-- Parse the body of a quoted attribute value up to the closing quote `q`,
decoding entities.  A raw left angle bracket or an unknown entity is a
failure, as in `encoding/xml`. -/
def parseQuoted (fuel : Nat) (q : Char) (s : List Char) :
    Option (List Char × List Char) :=
  match fuel with
  | 0 => none
  | fuel + 1 =>
    match s with
    | [] => none
    | c :: rest =>
      if c = q then some ([], rest)
      else if c = '&' then
        match matchEntity rest with
        | some (ch, rest2) =>
          (parseQuoted fuel q rest2).map fun p => (ch :: p.1, p.2)
        | none => none
      else if c = '<' then none
      else (parseQuoted fuel q rest).map fun p => (c :: p.1, p.2)

/-- Parse the attribute list inside a start tag, stopping (with surrounding
whitespace consumed) at the first character that cannot begin an attribute
name. -/
def parseAttrList (fuel : Nat) (s : List Char) :
    Option (List XmlAttr × List Char) :=
  match fuel with
  | 0 => none
  | fuel + 1 =>
    let s1 := skipWs s
    match s1 with
    | [] => some ([], [])
    | c :: _ =>
      if isNameChar c then
        let (n, r1) := takeName s1
        match skipWs r1 with
        | '=' :: r2 =>
          match skipWs r2 with
          | q :: r3 =>
            if q = '"' || q = aposChar then
              match parseQuoted (r3.length + 1) q r3 with
              | some (v, r4) =>
                (parseAttrList fuel r4).map fun p =>
                  (⟨String.mk n, String.mk v⟩ :: p.1, p.2)
              | none => none
            else none
          | [] => none
        | _ => none
      else some ([], s1)

/-- Parse character data up to the next tag or the end of input, decoding
entities. -/
def parseCharData (fuel : Nat) (s : List Char) :
    Option (List Char × List Char) :=
  match fuel with
  | 0 => none
  | fuel + 1 =>
    match s with
    | [] => some ([], [])
    | c :: rest =>
      if c = '<' then some ([], c :: rest)
      else if c = '&' then
        match matchEntity rest with
        | some (ch, rest2) =>
          (parseCharData fuel rest2).map fun p => (ch :: p.1, p.2)
        | none => none
      else (parseCharData fuel rest).map fun p => (c :: p.1, p.2)

/-- Parse a sequence of sibling nodes, stopping at a closing tag or the end
of input.  An element must be terminated either by a self-closing slash or
by a matching end tag; anything else fails. -/
def parseNodes (fuel : Nat) (s : List Char) :
    Option (List XmlNode × List Char) :=
  match fuel, s with
  | 0, _ => none
  | _ + 1, [] => some ([], [])
  | _ + 1, '<' :: '/' :: rest => some ([], '<' :: '/' :: rest)
  | fuel + 1, '<' :: rest =>
    let (n, r1) := takeName rest
    if n.isEmpty then none
    else
      match parseAttrList (r1.length + 1) r1 with
      | none => none
      | some (attrs, r2) =>
        match r2 with
        | '/' :: '>' :: r3 =>
          match parseNodes fuel r3 with
          | none => none
          | some (xs, r4) => some (.elem (String.mk n) attrs [] :: xs, r4)
        | '>' :: r3 =>
          match parseNodes fuel r3 with
          | none => none
          | some (kids, r4) =>
            match r4 with
            | '<' :: '/' :: r5 =>
              let (n2, r6) := takeName r5
              match skipWs r6 with
              | '>' :: r7 =>
                if n2 = n then
                  match parseNodes fuel r7 with
                  | none => none
                  | some (xs, r8) =>
                    some (.elem (String.mk n) attrs kids :: xs, r8)
                else none
              | _ => none
            | _ => none
        | _ => none
  | fuel + 1, c :: rest =>
    match parseCharData ((c :: rest).length + 1) (c :: rest) with
    | none => none
    | some ([], _) => none
    | some (t, r) =>
      match parseNodes fuel r with
      | none => none
      | some (xs, r2) => some (.text (String.mk t) :: xs, r2)

/-- Parse a whole document: after trimming outer whitespace it must consist
of exactly one root element and nothing else. -/
def parseXml (s : String) : Option XmlNode :=
  let cs := trimWs s.data
  match parseNodes (cs.length + 1) cs with
  | some ([XmlNode.elem n a k], []) => some (XmlNode.elem n a k)
  | _ => none

/-! ## The element structs

Embedded from the latest revision of elements.go.  Go `int` becomes `Int`,
Go `string` becomes `String`, a Go pointer-to-struct field becomes `Option`
(nil is `none`), and the two `float32` fields (`Timing`/`ParseTiming` on
`Result`, `Score` on `Reinterpretation`) are kept as the raw attribute text,
since no claim depends on a numeric reading of them.  Field order follows
the source. -/

/-- Error struct (elements.go): code and msg child elements. -/
structure Error where
  Code : Int
  Message : String
deriving DecidableEq, Repr

/-- ExamplePage struct (elements.go): category and url attributes. -/
structure ExamplePage where
  Topic : String
  URL : String
deriving DecidableEq, Repr

/-- FutureTopic struct (elements.go): topic and msg attributes. -/
structure FutureTopic where
  Topic : String
  Message : String
deriving DecidableEq, Repr

/-- Image struct (elements.go and image.go): src, alt, title, width, height
attributes. -/
structure Image where
  URL : String
  Alt : String
  Title : String
  Width : Int
  Height : Int
deriving DecidableEq, Repr

/-- LanguageMessage struct (elements.go): english and other attributes. -/
structure LanguageMessage where
  English : String
  Other : String
deriving DecidableEq, Repr

/-- MathML struct (elements.go): the inner XML of a mathml element. -/
structure MathML where
  Xml : String
deriving DecidableEq, Repr

/-- Subpod struct (elements.go, latest revision): img and mathml are
pointers there, hence Option here. -/
structure Subpod where
  Title : String
  Plaintext : String
  Image : Option Image
  MathML : Option MathML
  MathematicaInput : String
  MathematicaOutput : String
  Primary : Bool
deriving DecidableEq, Repr

/-- Pod struct (elements.go, latest revision). -/
structure Pod where
  Title : String
  Subpods : List Subpod
  ID : String
  Scanner : String
  Position : Int
  Errored : Bool
  Primary : Bool
deriving DecidableEq, Repr

/-- Reinterpretation struct (elements.go, latest revision); Score is a
float32 kept as raw attribute text. -/
structure Reinterpretation where
  Query : String
  Message : String
  Score : String
  Level : String
deriving DecidableEq, Repr

/-- AssumptionValue struct (elements.go): name, desc, input attributes. -/
structure AssumptionValue where
  Name : String
  Description : String
  Input : String
deriving DecidableEq, Repr

/-- Assumption struct (elements.go, latest revision): type, word, template
attributes and the repeated value children, in document order. -/
structure Assumption where
  «Type» : String
  Word : String
  Values : List AssumptionValue
  Template : String
deriving DecidableEq, Repr

/-- Source struct (elements.go): url and text attributes. -/
structure Source where
  URL : String
  Description : String
deriving DecidableEq, Repr

/-- Tip struct (elements.go, latest revision): the text attribute of a tip
element. -/
structure Tip where
  Message : String
deriving DecidableEq, Repr

/-- Result struct (elements.go, latest revision, lines 822-885).  Note that
ExamplePage, FutureTopic, LanguageMessage and Reinterpretation are pointer
fields in the source (Option here) while Error is a plain value field. -/
structure Result where
  ID : String
  Pods : List Pod
  Assumptions : List Assumption
  ExamplePage : Option ExamplePage
  FutureTopic : Option FutureTopic
  LanguageMessage : Option LanguageMessage
  Reinterpretation : Option Reinterpretation
  Suggestions : List String
  Tips : List Tip
  Sources : List Source
  Succeeded : Bool
  Errored : Bool
  Error : Error
  Recalculate : String
  DataTypes : String
  ParseTiming : String
  ParseTimedOut : Bool
  Timing : String
  TimedOut : String
  Version : String
deriving DecidableEq, Repr

/-! ## Decoding an XML tree into the structs

The decode functions realize what encoding/xml does with the xml struct tags
of the latest revision of elements.go.  The unmarshal machinery itself is
not part of the repository; its attribute and child-element selection rules
are modelled here and the spec-mandated pieces are marked as such. -/

/-- Look up an attribute by local name.  encoding/xml assigns matching
attributes in document order into the field, so with a repeated name the
last occurrence wins; unknown attributes are ignored. -/
def lookupAttr (attrs : List XmlAttr) (n : String) : Option String :=
  ((attrs.filter fun a => a.name == n).getLast?).map XmlAttr.value

/-- Child elements with the given name, in document order. -/
def childrenNamed (x : XmlNode) (n : String) : List XmlNode :=
  x.children.filter fun c => c.name? == some n

/-- First child element with the given name.  For the non-repeated fields of
this schema a conforming document carries at most one matching child, so the
first is the value; unknown elements are ignored. -/
def firstChildNamed (x : XmlNode) (n : String) : Option XmlNode :=
  (childrenNamed x n).head?

/-- Character data directly inside an element, concatenated.  Nested
elements are skipped, as encoding/xml does when unmarshalling an element
into a string field. -/
def textContent (x : XmlNode) : String :=
  String.join (x.children.filterMap fun c =>
    match c with
    | .text t => some t
    | _ => none)

/-- Modelled from the spec (§4.1 coercion; the repository has no decoder of
its own): a boolean attribute accepts the literal strings "true" and
"false"; a missing or malformed value degrades to the zero value false. -/
def coerceBool (s : Option String) : Bool :=
  match s with
  | some v => v == "true"
  | none => false

/-- Digit run to a number; none on a non-digit or on empty input. -/
def decDigits : List Char → Nat → Option Nat
  | [], acc => some acc
  | c :: rest, acc =>
    if c.isDigit then decDigits rest (acc * 10 + (c.toNat - 48))
    else none

/-- Base-10 integer with optional sign, surrounding XML space trimmed (as
strconv.ParseInt via copyValue does). -/
def parseIntText (s : String) : Option Int :=
  match trimWs s.data with
  | [] => none
  | '-' :: rest =>
    match rest with
    | [] => none
    | _ => (decDigits rest 0).map fun n => -(n : Int)
  | '+' :: rest =>
    match rest with
    | [] => none
    | _ => (decDigits rest 0).map fun n => (n : Int)
  | cs => (decDigits cs 0).map fun n => (n : Int)

/-- Modelled from the spec (§4.1 coercion): an integer attribute or element
parses as a base-10 integer; a missing or malformed value degrades to the
zero value 0 without failing the decode. -/
def coerceInt (s : Option String) : Int :=
  match s with
  | some v => (parseIntText v).getD 0
  | none => 0

/-- String attribute with the zero value "" when absent. -/
def strAttr (x : XmlNode) (n : String) : String :=
  (lookupAttr x.attrs n).getD ""

/-- Boolean attribute. -/
def boolAttr (x : XmlNode) (n : String) : Bool :=
  coerceBool (lookupAttr x.attrs n)

/-- Integer attribute. -/
def intAttr (x : XmlNode) (n : String) : Int :=
  coerceInt (lookupAttr x.attrs n)

/-- Character data of the named child element, "" when absent. -/
def childText (x : XmlNode) (n : String) : String :=
  ((firstChildNamed x n).map textContent).getD ""

/-- Integer content of the named child element, 0 when absent or
malformed. -/
def childInt (x : XmlNode) (n : String) : Int :=
  coerceInt ((firstChildNamed x n).map textContent)

/-- Escape character data for re-serialization. -/
def escapeData (s : String) : String :=
  String.mk (s.data.flatMap fun c =>
    if c = '&' then "&amp;".data
    else if c = '<' then "&lt;".data
    else if c = '>' then "&gt;".data
    else if c = '"' then "&quot;".data
    else [c])

/-- Serialize an attribute list. -/
def printAttrs (attrs : List XmlAttr) : String :=
  String.join (attrs.map fun a => " " ++ a.name ++ "=\"" ++ escapeData a.value ++ "\"")

/-- Serialize a node list back to markup. -/
def printNodes : List XmlNode → String
  | [] => ""
  | XmlNode.text t :: xs => escapeData t ++ printNodes xs
  | XmlNode.elem n attrs [] :: xs =>
    "<" ++ n ++ printAttrs attrs ++ "/>" ++ printNodes xs
  | XmlNode.elem n attrs (k :: ks) :: xs =>
    "<" ++ n ++ printAttrs attrs ++ ">" ++ printNodes (k :: ks) ++ "</" ++ n ++ ">"
      ++ printNodes xs

/-- Inner XML of an element, re-serialized from the tree.  Go's innerxml tag
captures the verbatim source bytes; for the documents in this development
(standard quoting, no comments) the re-serialization coincides. -/
def innerXml (x : XmlNode) : String :=
  printNodes x.children

/-- Decode an img element per the Image struct tags. -/
def decodeImage (x : XmlNode) : Image :=
  ⟨strAttr x "src", strAttr x "alt", strAttr x "title",
   intAttr x "width", intAttr x "height"⟩

/-- Decode a mathml element per the MathML struct tags (innerxml). -/
def decodeMathML (x : XmlNode) : MathML :=
  ⟨innerXml x⟩

/-- Decode a subpod element per the Subpod struct tags; img and mathml are
pointer fields in the source, absent children leave them nil (none). -/
def decodeSubpod (x : XmlNode) : Subpod :=
  ⟨strAttr x "title",
   childText x "plaintext",
   (firstChildNamed x "img").map decodeImage,
   (firstChildNamed x "mathml").map decodeMathML,
   childText x "minput",
   childText x "moutput",
   boolAttr x "primary"⟩

/-- Decode a pod element per the Pod struct tags; subpod children in
document order. -/
def decodePod (x : XmlNode) : Pod :=
  ⟨strAttr x "title",
   (childrenNamed x "subpod").map decodeSubpod,
   strAttr x "id",
   strAttr x "scanner",
   intAttr x "position",
   boolAttr x "error",
   boolAttr x "primary"⟩

/-- Decode an error element per the Error struct tags (code and msg child
elements). -/
def decodeError (x : XmlNode) : Error :=
  ⟨childInt x "code", childText x "msg"⟩

/-- Decode a value element per the AssumptionValue struct tags. -/
def decodeAssumptionValue (x : XmlNode) : AssumptionValue :=
  ⟨strAttr x "name", strAttr x "desc", strAttr x "input"⟩

/-- Decode an assumption element per the Assumption struct tags; value
children in document order (the first is the assumed value). -/
def decodeAssumption (x : XmlNode) : Assumption :=
  ⟨strAttr x "type",
   strAttr x "word",
   (childrenNamed x "value").map decodeAssumptionValue,
   strAttr x "template"⟩

/-- Decode a source element per the Source struct tags. -/
def decodeSource (x : XmlNode) : Source :=
  ⟨strAttr x "url", strAttr x "text"⟩

/-- Decode a tip element per the Tip struct tags. -/
def decodeTip (x : XmlNode) : Tip :=
  ⟨strAttr x "text"⟩

/-- Decode an examplepage element per the ExamplePage struct tags. -/
def decodeExamplePage (x : XmlNode) : ExamplePage :=
  ⟨strAttr x "category", strAttr x "url"⟩

/-- Decode a futuretopic element per the FutureTopic struct tags. -/
def decodeFutureTopic (x : XmlNode) : FutureTopic :=
  ⟨strAttr x "topic", strAttr x "msg"⟩

/-- Decode a languagemsg element per the LanguageMessage struct tags. -/
def decodeLanguageMessage (x : XmlNode) : LanguageMessage :=
  ⟨strAttr x "english", strAttr x "other"⟩

/-- Decode a reinterpret element per the Reinterpretation struct tags; the
float32 score is kept as raw text. -/
def decodeReinterpretation (x : XmlNode) : Reinterpretation :=
  ⟨strAttr x "new", strAttr x "text", strAttr x "score", strAttr x "level"⟩

/-- Decode the root queryresult element per the Result struct tags of the
latest revision.  Pointer fields in the source (ExamplePage, FutureTopic,
LanguageMessage, Reinterpretation) become some/none; the Error field is a
plain value in the source and takes its zero value when the error child is
absent.  The tips>tip path collects tip children of tips children. -/
def decodeResult (x : XmlNode) : Result :=
  ⟨strAttr x "id",
   (childrenNamed x "pod").map decodePod,
   (childrenNamed x "assumption").map decodeAssumption,
   (firstChildNamed x "examplepage").map decodeExamplePage,
   (firstChildNamed x "futuretopic").map decodeFutureTopic,
   (firstChildNamed x "languagemsg").map decodeLanguageMessage,
   (firstChildNamed x "reinterpret").map decodeReinterpretation,
   (childrenNamed x "didyoumean").map textContent,
   ((childrenNamed x "tips").flatMap fun t => childrenNamed t "tip").map decodeTip,
   (childrenNamed x "source").map decodeSource,
   boolAttr x "success",
   boolAttr x "error",
   ((firstChildNamed x "error").map decodeError).getD ⟨0, ""⟩,
   strAttr x "recalculate",
   strAttr x "datatypes",
   strAttr x "parsetiming",
   boolAttr x "parsetimedout",
   strAttr x "timing",
   strAttr x "timedout",
   strAttr x "version"⟩

/-- Modelled from the spec (§7 taxonomy): the only top-level decode failure
is a document that is not well-formed XML.  Field-level coercion failures
are absorbed locally and never surface at the top level, and NoPrimaryPod
and NoSubpods belong to PrimaryText, not to Decode. -/
inductive DecodeError where
  | malformedDocument
deriving DecidableEq, Repr

/-- Modelled from the spec (§4.1): the decoder entry point, which the
repository source does not contain (its tests call encoding/xml directly).
A document that is not well-formed XML fails with malformedDocument and no
partial tree is returned; a well-formed document decodes to a full Result
tree with no top-level error. -/
def Decode (s : String) : Except DecodeError Result :=
  match parseXml s with
  | none => Except.error DecodeError.malformedDocument
  | some doc => Except.ok (decodeResult doc)

/-! ## PrimaryText -/

/-- Failure cases of Result.PrimaryText: the source returns
errors.New("no primary pods") when no pod is primary and
errors.New("no subpods in first primary pod") when the first primary pod
has no subpods. -/
inductive PrimaryTextError where
  | noPrimaryPod
  | noSubpods
deriving DecidableEq, Repr

/-- Scan for the first primary pod, per the loop of Result.PrimaryText
(elements.go, lines 524-534): return its first subpod's plaintext, or the
noSubpods error when its subpod list is empty; reaching the end without a
primary pod gives the noPrimaryPod error. -/
def firstPrimaryText : List Pod → Except PrimaryTextError String
  | [] => Except.error PrimaryTextError.noPrimaryPod
  | pod :: rest =>
    if pod.Primary then
      match pod.Subpods with
      | [] => Except.error PrimaryTextError.noSubpods
      | sp :: _ => Except.ok sp.Plaintext
    else firstPrimaryText rest

/-- PrimaryText returns the first primary pod's plaintext representation
(elements.go, lines 523-534).  The source's loop header binds the slice
index rather than the element (a slip that does not compile in Go); the
documented iteration over the pod values in order is embedded. -/
def Result.PrimaryText (res : Result) : Except PrimaryTextError String :=
  firstPrimaryText res.Pods

/-! ## The two Mime implementations -/

/-- Rest of the list after the first occurrence of pat, when pat occurs. -/
def afterFirstSubstr (pat : List Char) : List Char → Option (List Char)
  | [] => if pat.isEmpty then some [] else none
  | c :: rest =>
    if pat.isPrefixOf (c :: rest) then some ((c :: rest).drop pat.length)
    else afterFirstSubstr pat rest

/-- The parameter name both Mime implementations look for. -/
def mspKey : List Char := "MSPStoreType".data

/-- The search pattern of the index-based Mime: the parameter name followed
by an equals sign. -/
def mspPat : List Char := mspKey ++ ['=']

/-- Mime as implemented in image.go (lines 30-35): the URL slice after the
first occurrence of "MSPStoreType=" (strings.Index), or "" when the pattern
does not occur. -/
def Image.MimeIndex (img : Image) : String :=
  match afterFirstSubstr mspPat img.URL.data with
  | some r => String.mk r
  | none => ""

/-- ASCII control characters, which net/url.Parse rejects outright. -/
def isCtlChar (c : Char) : Bool :=
  c.toNat < 32 || c.toNat == 127

/-- Content before the first occurrence of sep, paired with the content
after it when sep occurs (strings.Cut). -/
def cutAt (sep : Char) : List Char → List Char × Option (List Char)
  | [] => ([], none)
  | c :: rest =>
    if c = sep then ([], some rest)
    else
      let p := cutAt sep rest
      (c :: p.1, p.2)

/-- The scheme-and-authority opening of a plain http URL. -/
def httpPrefix : List Char := "http://".data

/-- The scheme-and-authority opening of an https URL. -/
def httpsPrefix : List Char := "https://".data

/-- Characters the conservative url.Parse model accepts in the
host-and-path portion: ASCII alphanumerics, the unreserved marks dash,
underscore, dot and tilde, and the slash separator.  net/url.Parse accepts
all of them in a host or path with no escaping and no error (they are
outside every error path of parseAuthority, parseHost and setPath), and
none of them is a colon, percent sign, hash, question mark, bracket, at
sign, space or control character, the characters through which Parse can
fail or change its splitting. -/
def hostPathOk (c : Char) : Bool :=
  (48 ≤ c.toNat && c.toNat ≤ 57) || (65 ≤ c.toNat && c.toNat ≤ 90)
    || (97 ≤ c.toNat && c.toNat ≤ 122)
    || c = '-' || c = '_' || c = '.' || c = '~' || c = '/'

/-- A pre-query part within the certified fragment of url.Parse: an http or
https scheme-and-authority opening followed by host-and-path characters
only. -/
def isHttpBase (pre : List Char) : Bool :=
  (httpPrefix.isPrefixOf pre && (pre.drop httpPrefix.length).all hostPathOk)
    || (httpsPrefix.isPrefixOf pre && (pre.drop httpsPrefix.length).all hostPathOk)

/-- Conservative model of the net/url.Parse step of Mime.  The model
certifies success only on its verified fragment: a URL with no hash and no
control character anywhere whose part before the first question mark
satisfies isHttpBase; there the real Parse provably succeeds (scheme
"http"/"https" parses, the query is cut at the first question mark before
authority parsing, the authority and path contain only characters that
escape none of parseHost's and setPath's error paths) and RawQuery is
everything after the first question mark, which the model returns.  Every
other URL is treated as a parse failure (none) — this deliberately
under-approximates Parse, which also succeeds on many URLs outside the
fragment, but it never reports success where the real Parse can fail
(control characters, fragments with invalid escapes, invalid percent
escapes or invalid host characters before the query, exotic schemes), and
no theorem below relies on the model outside the certified fragment. -/
def goRawQuery (url : List Char) : Option (List Char) :=
  if url.contains '#' then none
  else if url.any isCtlChar then none
  else
    let cut := cutAt '?' url
    if isHttpBase cut.1 then some (cut.2.getD []) else none

/-- Value of a hexadecimal digit. -/
def hexDigitVal (c : Char) : Option Nat :=
  if c.isDigit then some (c.toNat - 48)
  else if 97 ≤ c.toNat && c.toNat ≤ 102 then some (c.toNat - 87)
  else if 65 ≤ c.toNat && c.toNat ≤ 70 then some (c.toNat - 55)
  else none

/-- QueryUnescape of net/url for the query component: a plus becomes a
space, a percent must be followed by two hex digits and decodes to that code
(byte-level in Go, code-point-level here, which agrees on the ASCII range
this development uses), any other character stands for itself. -/
def queryUnescape : List Char → Option (List Char)
  | [] => some []
  | c :: rest =>
    if c = '%' then
      match rest with
      | a :: b :: rest2 =>
        match hexDigitVal a, hexDigitVal b with
        | some ha, some hb =>
          (queryUnescape rest2).map fun t => Char.ofNat (16 * ha + hb) :: t
        | _, _ => none
      | _ => none
    else if c = '+' then (queryUnescape rest).map fun t => ' ' :: t
    else (queryUnescape rest).map fun t => c :: t

/-- First value for the key, per net/url parseQuery (Go 1.17 semantics)
followed by Values.Get: the query splits at every ampersand; an empty piece,
a piece containing a semicolon, and a piece that fails to unescape are
skipped; a piece is cut at its first equals sign into key and value; Get of
a key with no surviving piece is "". -/
def queryGet (query : List Char) (key : List Char) : List Char :=
  ((((query.splitOn '&').filter fun p => !p.isEmpty).findSome? fun piece =>
    if piece.contains ';' then none
    else
      let c := cutAt '=' piece
      match queryUnescape c.1, queryUnescape (c.2.getD []) with
      | some k2, some v2 => if k2 = key then some v2 else none
      | _, _ => none)).getD []

/-- Mime as implemented in elements.go (lines 386-392 and 721-729, which
are identical): url.Parse the URL and return the MSPStoreType query
parameter; "" when the URL does not parse or the parameter is absent.  The
Parse step follows the conservative goRawQuery model above, exact on its
certified fragment, which contains every URL the theorems below touch. -/
def Image.Mime (img : Image) : String :=
  match goRawQuery img.URL.data with
  | none => ""
  | some q => String.mk (queryGet q mspKey)

/-! ## Concrete sample values -/

/-- A Result with the given pods and every other field at its zero value,
used to instantiate the PrimaryText theorems at concrete inputs. -/
def resultWithPods (pods : List Pod) : Result :=
  ⟨"", pods, [], none, none, none, none, [], [], [], false, false, ⟨0, ""⟩,
   "", "", "", false, "", "", ""⟩

/-! ## PrimaryText theorems -/

/-- Pods that are not primary are skipped by the scan. -/
theorem firstPrimaryText_append (l₁ l₂ : List Pod)
    (h : ∀ q ∈ l₁, q.Primary = false) :
    firstPrimaryText (l₁ ++ l₂) = firstPrimaryText l₂ := by
  induction l₁ with
  | nil => rfl
  | cons q rest ih =>
    have hq : q.Primary = false := h q (List.mem_cons_self q rest)
    simp only [List.cons_append, firstPrimaryText, hq, Bool.false_eq_true,
      if_false]
    exact ih fun p hp => h p (List.mem_cons_of_mem q hp)

/-- Claim C1: on a Result whose pod list, in document order, has a first
primary pod with a non-empty subpod list, PrimaryText returns that pod's
first subpod's Plaintext with no error, regardless of what follows the
first primary pod (short-circuit). -/
theorem primaryText_first_primary_pod (res : Result) (l₁ l₂ : List Pod)
    (p : Pod) (sp : Subpod) (sps : List Subpod)
    (hsplit : res.Pods = l₁ ++ p :: l₂)
    (hbefore : ∀ q ∈ l₁, q.Primary = false)
    (hp : p.Primary = true)
    (hsub : p.Subpods = sp :: sps) :
    res.PrimaryText = Except.ok sp.Plaintext := by
  unfold Result.PrimaryText
  rw [hsplit, firstPrimaryText_append l₁ (p :: l₂) hbefore]
  simp [firstPrimaryText, hp, hsub]

/-- Witness for C1, at the claim's concrete input: one primary pod whose
single subpod's Plaintext is "convert 10 feet to meters". -/
theorem primaryText_first_primary_pod_witness :
    (resultWithPods
      [⟨"Result", [⟨"", "convert 10 feet to meters", none, none, "", "", false⟩],
        "Result", "", 200, false, true⟩]).PrimaryText
      = Except.ok "convert 10 feet to meters" :=
  primaryText_first_primary_pod _ [] [] _ _ [] rfl (by simp) rfl rfl

/-- Claim C2: on a Result in which no pod is primary (an empty pod list
included), PrimaryText fails with the noPrimaryPod error and returns no
text. -/
theorem primaryText_no_primary_pod (res : Result)
    (h : ∀ q ∈ res.Pods, q.Primary = false) :
    res.PrimaryText = Except.error PrimaryTextError.noPrimaryPod := by
  unfold Result.PrimaryText
  have h0 := firstPrimaryText_append res.Pods [] h
  simpa using h0

/-- Witness for C2, at the empty pod list. -/
theorem primaryText_no_primary_pod_witness :
    (resultWithPods []).PrimaryText
      = Except.error PrimaryTextError.noPrimaryPod :=
  primaryText_no_primary_pod (resultWithPods []) (by simp [resultWithPods])

/-- Claim C3: on a Result whose first primary pod has an empty subpod list,
PrimaryText fails with the noSubpods error; and noPrimaryPod/noSubpods are
raised only by PrimaryText, never by Decode, whose only failure is
malformedDocument. -/
theorem primaryText_no_subpods_decode_scope (res : Result)
    (l₁ l₂ : List Pod) (p : Pod)
    (hsplit : res.Pods = l₁ ++ p :: l₂)
    (hbefore : ∀ q ∈ l₁, q.Primary = false)
    (hp : p.Primary = true)
    (hsub : p.Subpods = [])
    (s : String) :
    res.PrimaryText = Except.error PrimaryTextError.noSubpods
      ∧ (Decode s = Except.error DecodeError.malformedDocument
          ∨ ∃ r, Decode s = Except.ok r) := by
  constructor
  · unfold Result.PrimaryText
    rw [hsplit, firstPrimaryText_append l₁ (p :: l₂) hbefore]
    simp [firstPrimaryText, hp, hsub]
  · unfold Decode
    cases parseXml s with
    | none => exact Or.inl rfl
    | some doc => exact Or.inr ⟨decodeResult doc, rfl⟩

/-- Witness for C3: a Result whose only pod is primary with no subpods, and
the unterminated document from the spec. -/
theorem primaryText_no_subpods_decode_scope_witness :
    (resultWithPods [⟨"Result", [], "Result", "", 200, false, true⟩]).PrimaryText
      = Except.error PrimaryTextError.noSubpods
      ∧ (Decode "<queryresult>" = Except.error DecodeError.malformedDocument
          ∨ ∃ r, Decode "<queryresult>" = Except.ok r) :=
  primaryText_no_subpods_decode_scope _ [] [] _ rfl (by simp) rfl rfl
    "<queryresult>"

/-! ## Decoder theorems -/

/-- Claim C4: a subpod with no img child decodes with Image in the absent
state (none), a subpod with an empty self-closing img child decodes with a
present Image whose Width and Height are zero, and the two outcomes are
distinguishable values. -/
theorem subpod_image_absent_vs_empty :
    (parseXml "<subpod><plaintext>x</plaintext></subpod>").map decodeSubpod
      = some ⟨"", "x", none, none, "", "", false⟩
  ∧ (parseXml "<subpod><img/></subpod>").map decodeSubpod
      = some ⟨"", "", some ⟨"", "", "", 0, 0⟩, none, "", "", false⟩
  ∧ (some (⟨"", "", "", 0, 0⟩ : Image) ≠ (none : Option Image)) :=
  ⟨rfl, rfl, by decide⟩

/-- Claim C9: the img fragment from the spec decodes to the stated Image
value, and the Mime helper of elements.go applied to it returns exactly
"image/gif". -/
theorem image_decode_and_mime_example :
    (parseXml ("<img src=\"http://x/53?MSPStoreType=image/gif\" alt=\"x = 0\""
        ++ " title=\"x = 0\" width=\"36\" height=\"18\"/>")).map decodeImage
      = some ⟨"http://x/53?MSPStoreType=image/gif", "x = 0", "x = 0", 36, 18⟩
  ∧ Image.Mime ⟨"http://x/53?MSPStoreType=image/gif", "x = 0", "x = 0", 36, 18⟩
      = "image/gif" :=
  ⟨rfl, rfl⟩

/-- Claim C5 counterexample: decoding a queryresult with no error child
leaves Result.Error at the zero value (Error 0 ""), exactly the value a
present-but-empty error element decodes to, so the absent state is not
distinguishable from the present-but-empty one: Result.Error is a plain
value field in the source. -/
theorem result_error_absent_counterexample :
    (Decode "<queryresult></queryresult>").map Result.Error
      = Except.ok ⟨0, ""⟩
  ∧ (Decode "<queryresult><error/></queryresult>").map Result.Error
      = Except.ok ⟨0, ""⟩ :=
  ⟨rfl, rfl⟩

/-- Claim C5 amended: after decoding a well-formed queryresult document
whose root has no error child, Result.Error is the zero value Error 0 "",
which is not distinguishable from the decode of a present-but-empty error
element. -/
theorem result_error_zero_when_absent (s : String) (d : XmlNode)
    (hparse : parseXml s = some d)
    (hnoerr : firstChildNamed d "error" = none) :
    (Decode s).map Result.Error = Except.ok ⟨0, ""⟩ := by
  unfold Decode
  rw [hparse]
  simp [Except.map, decodeResult, hnoerr]

/-- Witness for the amended C5, at the empty queryresult document. -/
theorem result_error_zero_when_absent_witness :
    (Decode "<queryresult></queryresult>").map Result.Error
      = Except.ok ⟨0, ""⟩ :=
  result_error_zero_when_absent _ (XmlNode.elem "queryresult" [] []) rfl rfl

/-- Document with a malformed (non-integer) position attribute on a pod. -/
def docBadPosition : String :=
  "<queryresult><pod title=\"T\" position=\"1o0\" primary=\"true\">"
    ++ "<subpod><plaintext>hi</plaintext></subpod></pod></queryresult>"

/-- The same document with the position attribute absent. -/
def docNoPosition : String :=
  "<queryresult><pod title=\"T\" primary=\"true\">"
    ++ "<subpod><plaintext>hi</plaintext></subpod></pod></queryresult>"

/-- Claim C6: a well-formed document never produces a top-level decode
error; on the concrete document whose pod carries the malformed position
attribute "1o0", the decode succeeds, the Position field degrades to the
zero value, and the Result tree is exactly the one obtained with the
attribute absent. -/
theorem decode_field_coercion_degrades (s : String) (d : XmlNode)
    (hparse : parseXml s = some d) :
    Decode s = Except.ok (decodeResult d)
  ∧ Decode docBadPosition = Decode docNoPosition
  ∧ Decode docBadPosition
      = Except.ok (resultWithPods
          [⟨"T", [⟨"", "hi", none, none, "", "", false⟩], "", "", 0, false, true⟩]) := by
  refine ⟨?_, rfl, rfl⟩
  unfold Decode
  rw [hparse]

/-- Witness for C6, at the empty queryresult document. -/
theorem decode_field_coercion_degrades_witness :
    Decode "<queryresult></queryresult>"
      = Except.ok (decodeResult (XmlNode.elem "queryresult" [] []))
  ∧ Decode docBadPosition = Decode docNoPosition
  ∧ Decode docBadPosition
      = Except.ok (resultWithPods
          [⟨"T", [⟨"", "hi", none, none, "", "", false⟩], "", "", 0, false, true⟩]) :=
  decode_field_coercion_degrades "<queryresult></queryresult>"
    (XmlNode.elem "queryresult" [] []) rfl

/-- Claim C7: an input that is not well-formed XML makes Decode fail with
the malformedDocument error, and no Result, partial or otherwise, is
returned. -/
theorem decode_malformed_document (s : String)
    (hs : parseXml s = none) :
    Decode s = Except.error DecodeError.malformedDocument
  ∧ ∀ r : Result, Decode s ≠ Except.ok r := by
  unfold Decode
  rw [hs]
  exact ⟨rfl, fun r h => Except.noConfusion h⟩

/-- Witness for C7, at the spec's example of an unterminated tag. -/
theorem decode_malformed_document_witness :
    Decode "<queryresult>" = Except.error DecodeError.malformedDocument
  ∧ ∀ r : Result, Decode "<queryresult>" ≠ Except.ok r :=
  decode_malformed_document "<queryresult>" rfl

/-- XML element encoding an AssumptionValue through its three attributes. -/
def valueElem (v : AssumptionValue) : XmlNode :=
  XmlNode.elem "value"
    [⟨"name", v.Name⟩, ⟨"desc", v.Description⟩, ⟨"input", v.Input⟩] []

/-- Decoding the element of an AssumptionValue recovers it. -/
theorem decodeAssumptionValue_valueElem (v : AssumptionValue) :
    decodeAssumptionValue (valueElem v) = v := by
  cases v
  rfl

/-- Decoding an assumption element whose value children encode the list vs
yields Values = vs: document order is preserved. -/
theorem decodeAssumption_values (t w : String) (vs : List AssumptionValue) :
    (decodeAssumption (XmlNode.elem "assumption"
        [⟨"type", t⟩, ⟨"word", w⟩] (vs.map valueElem))).Values = vs := by
  show ((vs.map valueElem).filter _).map decodeAssumptionValue = vs
  rw [List.filter_eq_self.mpr, List.map_map]
  · simp [Function.comp_def, decodeAssumptionValue_valueElem]
  · intro x hx
    obtain ⟨v, _, rfl⟩ := List.mem_map.mp hx
    rfl

/-- Claim C8: an assumption element with three value children in document
order A, B, C decodes to Values exactly [A, B, C]; in general the repeated
value children decode to an ordered sequence preserving document order, so
the first AssumptionValue is the first (assumed) value child. -/
theorem assumption_values_document_order (t w : String)
    (a b c : AssumptionValue) (vs : List AssumptionValue) :
    (decodeAssumption (XmlNode.elem "assumption" [⟨"type", t⟩, ⟨"word", w⟩]
        [valueElem a, valueElem b, valueElem c])).Values = [a, b, c]
  ∧ (decodeAssumption (XmlNode.elem "assumption" [⟨"type", t⟩, ⟨"word", w⟩]
        (vs.map valueElem))).Values = vs :=
  ⟨decodeAssumption_values t w [a, b, c], decodeAssumption_values t w vs⟩

/-! ## Comparing the two Mime implementations -/

/-- Characters allowed in the parameter value for the Mime agreement
theorem: no control character and none of the query metacharacters
ampersand, semicolon, hash, percent, plus. -/
def queryValOk (c : Char) : Bool :=
  !isCtlChar c && c != '&' && c != ';' && c != '#' && c != '%' && c != '+'

/-- A host-and-path character is never a control character: alphanumerics
lie in the printable ASCII ranges and the five marks are concrete printable
characters. -/
theorem hostPathOk_not_ctl (c : Char) (h : hostPathOk c = true) :
    isCtlChar c = false := by
  simp only [hostPathOk, Bool.or_eq_true, Bool.and_eq_true,
    decide_eq_true_eq] at h
  rcases h with ((((((h1 | h1) | h1) | rfl) | rfl) | rfl) | rfl) | rfl
  · simp only [isCtlChar, Bool.or_eq_false_iff, decide_eq_false_iff_not,
      Nat.not_lt, beq_eq_false_iff_ne, ne_eq]
    omega
  · simp only [isCtlChar, Bool.or_eq_false_iff, decide_eq_false_iff_not,
      Nat.not_lt, beq_eq_false_iff_ne, ne_eq]
    omega
  · simp only [isCtlChar, Bool.or_eq_false_iff, decide_eq_false_iff_not,
      Nat.not_lt, beq_eq_false_iff_ne, ne_eq]
    omega
  · decide
  · decide
  · decide
  · decide
  · decide

/-- A pattern containing a character the list lacks does not occur. -/
theorem afterFirstSubstr_none_of_not_mem (pat s : List Char) (c : Char)
    (hcp : c ∈ pat) (hcs : c ∉ s) :
    afterFirstSubstr pat s = none := by
  induction s with
  | nil =>
    have hne : pat.isEmpty = false := by
      cases pat with
      | nil => exact absurd hcp (List.not_mem_nil c)
      | cons p ps => rfl
    simp [afterFirstSubstr, hne]
  | cons d rest ih =>
    have hpre : pat.isPrefixOf (d :: rest) = false := by
      cases hp : pat.isPrefixOf (d :: rest) with
      | false => rfl
      | true =>
        exact absurd ((List.isPrefixOf_iff_prefix.mp hp).subset hcp) hcs
    simp [afterFirstSubstr, hpre,
      ih fun hm => hcs (List.mem_cons_of_mem d hm)]

theorem queryValOk_spec (c : Char) (h : queryValOk c = true) :
    isCtlChar c = false ∧ c ≠ '&' ∧ c ≠ ';' ∧ c ≠ '#' ∧ c ≠ '%' ∧ c ≠ '+' := by
  simp only [queryValOk, Bool.and_eq_true, Bool.not_eq_true', bne_iff_ne] at h
  exact ⟨h.1.1.1.1.1, h.1.1.1.1.2, h.1.1.1.2, h.1.1.2, h.1.2, h.2⟩

/-- A pattern avoiding the separator that is a prefix of a list with the
separator appended cannot reach past the separator. -/
theorem isPrefixOf_append_sep (sep : Char) (pat s t : List Char)
    (hsep : sep ∉ pat)
    (h : pat.isPrefixOf (s ++ sep :: t) = true) :
    pat.isPrefixOf s = true := by
  induction s generalizing pat with
  | nil =>
    cases pat with
    | nil => rfl
    | cons p ps =>
      simp only [List.nil_append, List.isPrefixOf, Bool.and_eq_true,
        beq_iff_eq] at h
      exact absurd (h.1 ▸ List.mem_cons_self p ps) hsep
  | cons x s2 ih =>
    cases pat with
    | nil => rfl
    | cons p ps =>
      simp only [List.cons_append, List.isPrefixOf, Bool.and_eq_true,
        beq_iff_eq] at h ⊢
      exact ⟨h.1, ih ps (fun hm => hsep (List.mem_cons_of_mem p hm)) h.2⟩

/-- The first occurrence of a pattern that avoids the separator, in a list
with no occurrence before the separator, lies after the separator. -/
theorem afterFirstSubstr_append_sep (sep : Char) (pat base rest : List Char)
    (hnone : afterFirstSubstr pat base = none)
    (hsep : sep ∉ pat) (hne : pat ≠ []) :
    afterFirstSubstr pat (base ++ sep :: rest) = afterFirstSubstr pat rest := by
  induction base with
  | nil =>
    have hpre : pat.isPrefixOf (sep :: rest) = false := by
      cases hp : pat.isPrefixOf (sep :: rest) with
      | false => rfl
      | true =>
        have h0 : pat.isPrefixOf ([] : List Char) = true :=
          isPrefixOf_append_sep sep pat [] rest hsep (by simpa using hp)
        cases pat with
        | nil => exact absurd rfl hne
        | cons p ps => simp [List.isPrefixOf] at h0
    simp [afterFirstSubstr, hpre]
  | cons c base2 ih =>
    have h1 : pat.isPrefixOf (c :: base2) = false := by
      cases hp : pat.isPrefixOf (c :: base2) with
      | false => rfl
      | true => simp [afterFirstSubstr, hp] at hnone
    have h2 : afterFirstSubstr pat base2 = none := by
      simpa [afterFirstSubstr, h1] using hnone
    have h3 : pat.isPrefixOf (c :: (base2 ++ sep :: rest)) = false := by
      cases hp : pat.isPrefixOf (c :: (base2 ++ sep :: rest)) with
      | false => rfl
      | true =>
        have := isPrefixOf_append_sep sep pat (c :: base2) rest hsep
          (by simpa using hp)
        simp [this] at h1
    simpa [afterFirstSubstr, h3] using ih h2

/-- The rest after the first occurrence of a pattern placed at the front. -/
theorem afterFirstSubstr_self (pat t : List Char) (hne : pat ≠ []) :
    afterFirstSubstr pat (pat ++ t) = some t := by
  cases pat with
  | nil => exact absurd rfl hne
  | cons p ps =>
    have hpre : (p :: ps).isPrefixOf ((p :: ps) ++ t) = true :=
      List.isPrefixOf_iff_prefix.mpr (List.prefix_append (p :: ps) t)
    have hdrop := List.drop_left (p :: ps) t
    simp only [List.cons_append] at hpre hdrop ⊢
    simp [afterFirstSubstr, hpre, hdrop]

/-- Cutting at the first occurrence of the separator. -/
theorem cutAt_append (sep : Char) (base rest : List Char) (h : sep ∉ base) :
    cutAt sep (base ++ sep :: rest) = (base, some rest) := by
  induction base with
  | nil => simp [cutAt]
  | cons c base2 ih =>
    have hc : ¬(c = sep) := by
      rintro rfl
      exact h (List.mem_cons_self c base2)
    simp [cutAt, hc, ih fun hm => h (List.mem_cons_of_mem c hm)]

/-- Unescaping is the identity on text with no percent and no plus. -/
theorem queryUnescape_plain (s : List Char)
    (h : ∀ x ∈ s, x ≠ '%' ∧ x ≠ '+') :
    queryUnescape s = some s := by
  induction s with
  | nil => rfl
  | cons c rest ih =>
    have hc := h c (List.mem_cons_self c rest)
    rw [queryUnescape.eq_def]
    simp [hc.1, hc.2, ih fun x hx => h x (List.mem_cons_of_mem c hx)]

/-- Evaluation of the query lookup on a single clean parameter. -/
theorem queryGet_single (v : List Char)
    (hv : ∀ x ∈ v, queryValOk x = true) :
    queryGet (mspKey ++ '=' :: v) mspKey = v := by
  have hsplit : (mspKey ++ '=' :: v).splitOn '&' = [mspKey ++ '=' :: v] :=
    List.splitOnP_eq_single _ _ (by
      intro x hx
      simp only [beq_iff_eq]
      rcases List.mem_append.mp hx with hk | hv2
      · exact (by decide : ∀ y ∈ mspKey, ¬y = '&') x hk
      · rcases List.mem_cons.mp hv2 with rfl | hv3
        · decide
        · exact (queryValOk_spec x (hv x hv3)).2.1)
  have hsemi : ¬(';' ∈ mspKey ∨ ';' ∈ v) := by
    rintro (hk | hx)
    · exact (by decide : ';' ∉ mspKey) hk
    · exact (queryValOk_spec ';' (hv ';' hx)).2.2.1 rfl
  have hcut : cutAt '=' (mspKey ++ '=' :: v) = (mspKey, some v) :=
    cutAt_append '=' mspKey v (by decide)
  have hkey : queryUnescape mspKey = some mspKey := rfl
  have hval : queryUnescape v = some v :=
    queryUnescape_plain v fun x hx =>
      ⟨(queryValOk_spec x (hv x hx)).2.2.2.2.1,
       (queryValOk_spec x (hv x hx)).2.2.2.2.2⟩
  have hne2 : (mspKey ++ '=' :: v).isEmpty = false := by
    simp [List.isEmpty_iff]
  unfold queryGet
  rw [hsplit]
  simp [hne2, List.findSome?_cons, hsemi, hcut, hkey, hval]

/-- Evaluation of the URL-parsing Mime on a URL within the certified
fragment of the Parse model: an http base of host-and-path characters,
then the MSPStoreType parameter with a clean value. -/
theorem mime_parse_eval (img : Image) (hp v : List Char)
    (hurl : img.URL.data = (httpPrefix ++ hp) ++ '?' :: (mspKey ++ '=' :: v))
    (hhp : ∀ x ∈ hp, hostPathOk x = true)
    (hv : ∀ x ∈ v, queryValOk x = true) :
    Image.Mime img = String.mk v := by
  have hch : ((httpPrefix ++ hp) ++ '?' :: (mspKey ++ '=' :: v)).contains '#'
      = false := by
    rw [List.contains_eq_any_beq, List.any_eq_false]
    intro x hx
    simp only [beq_iff_eq]
    intro he
    subst he
    rcases List.mem_append.mp hx with h1 | h2
    · rcases List.mem_append.mp h1 with h3 | h4
      · exact (by decide : '#' ∉ httpPrefix) h3
      · exact absurd (hhp '#' h4) (by decide)
    · rcases List.mem_cons.mp h2 with h5 | h6
      · exact absurd h5 (by decide)
      · rcases List.mem_append.mp h6 with h7 | h8
        · exact (by decide : '#' ∉ mspKey) h7
        · rcases List.mem_cons.mp h8 with h9 | h10
          · exact absurd h9 (by decide)
          · exact absurd (hv '#' h10) (by decide)
  have hctl : ((httpPrefix ++ hp) ++ '?' :: (mspKey ++ '=' :: v)).any isCtlChar
      = false := by
    rw [List.any_eq_false]
    intro x hx
    rcases List.mem_append.mp hx with h1 | h2
    · rcases List.mem_append.mp h1 with h3 | h4
      · exact (by decide : ∀ y ∈ httpPrefix, ¬isCtlChar y = true) x h3
      · simp [hostPathOk_not_ctl x (hhp x h4)]
    · rcases List.mem_cons.mp h2 with rfl | h6
      · decide
      · rcases List.mem_append.mp h6 with h7 | h8
        · exact (by decide : ∀ y ∈ mspKey, ¬isCtlChar y = true) x h7
        · rcases List.mem_cons.mp h8 with rfl | h10
          · decide
          · simp [(queryValOk_spec x (hv x h10)).1]
  have hq0 : '?' ∉ httpPrefix ++ hp := by
    intro hx
    rcases List.mem_append.mp hx with h1 | h2
    · exact (by decide : '?' ∉ httpPrefix) h1
    · exact absurd (hhp '?' h2) (by decide)
  have hcut := cutAt_append '?' (httpPrefix ++ hp) (mspKey ++ '=' :: v) hq0
  have hbase : isHttpBase (httpPrefix ++ hp) = true := by
    have hpre : httpPrefix.isPrefixOf (httpPrefix ++ hp) = true :=
      List.isPrefixOf_iff_prefix.mpr (List.prefix_append httpPrefix hp)
    have hdrop : (httpPrefix ++ hp).drop httpPrefix.length = hp :=
      List.drop_left httpPrefix hp
    have hall : hp.all hostPathOk = true := List.all_eq_true.mpr hhp
    simp [isHttpBase, hpre, hdrop, hall]
  unfold Image.Mime
  rw [hurl]
  simp only [goRawQuery]
  rw [hch, hctl, hcut]
  simp [hbase, queryGet_single v hv]

/-- Evaluation of the index-based Mime on a URL of the clean shape. -/
theorem mimeIndex_eval (img : Image) (base v : List Char)
    (hurl : img.URL.data = base ++ '?' :: (mspKey ++ '=' :: v))
    (hocc : afterFirstSubstr mspPat base = none) :
    Image.MimeIndex img = String.mk v := by
  have hshape : base ++ '?' :: (mspKey ++ '=' :: v)
      = base ++ '?' :: (mspPat ++ v) := by
    simp [mspPat, List.append_assoc]
  unfold Image.MimeIndex
  rw [hurl, hshape,
    afterFirstSubstr_append_sep '?' mspPat base (mspPat ++ v) hocc
      (by decide) (by decide),
    afterFirstSubstr_self mspPat v (by decide)]

/-- Image from the repository's TestSubpod, whose URL carries a second
query parameter after MSPStoreType. -/
def testSubpodImage : Image :=
  ⟨"http://www.wolframalpha.com/ag659?MSPStoreType=image/gif&s=16",
   "d/x (4 x^2)", "d/x (4 x^2)", 51, 37⟩

/-- Claim C10 counterexample: on the Image of the repository's TestSubpod
the index-based Mime of image.go returns "image/gif&s=16" (everything after
"MSPStoreType=") while the URL-parsing Mime of elements.go returns
"image/gif" (the decoded query parameter), so the two implementations do
not return the same string for every Image. -/
theorem mime_implementations_differ :
    Image.MimeIndex testSubpodImage = "image/gif&s=16"
  ∧ Image.Mime testSubpodImage = "image/gif"
  ∧ Image.MimeIndex testSubpodImage ≠ Image.Mime testSubpodImage :=
  ⟨rfl, rfl, by decide⟩

/-- Claim C10 amended: the two Mime implementations agree on every Image
whose URL is an http base made of the scheme opening "http://" and
host-and-path characters only (ASCII alphanumerics, dash, underscore, dot,
tilde, slash — in particular no percent escape, colon, space, hash or
control character, so the real url.Parse provably succeeds on it), followed
by "?MSPStoreType=" and a value free of control characters and of the query
metacharacters ampersand, semicolon, hash, percent and plus; both then
return that value.  Such a base cannot contain "MSPStoreType=" (it has no
equals sign).  On Images outside this shape the implementations can differ,
as the counterexample shows. -/
theorem mime_implementations_agree (img : Image) (hp v : List Char)
    (hurl : img.URL.data = (httpPrefix ++ hp) ++ '?' :: (mspKey ++ '=' :: v))
    (hhp : ∀ x ∈ hp, hostPathOk x = true)
    (hv : ∀ x ∈ v, queryValOk x = true) :
    Image.MimeIndex img = Image.Mime img
  ∧ Image.Mime img = String.mk v := by
  have hocc : afterFirstSubstr mspPat (httpPrefix ++ hp) = none :=
    afterFirstSubstr_none_of_not_mem mspPat (httpPrefix ++ hp) '='
      (by decide)
      (by
        intro hx
        rcases List.mem_append.mp hx with h1 | h2
        · exact (by decide : '=' ∉ httpPrefix) h1
        · exact absurd (hhp '=' h2) (by decide))
  have h1 := mimeIndex_eval img (httpPrefix ++ hp) v hurl hocc
  have h2 := mime_parse_eval img hp v hurl hhp hv
  exact ⟨h1.trans h2.symm, h2⟩

/-- Witness for the amended C10, at the spec's example URL. -/
theorem mime_implementations_agree_witness :
    Image.MimeIndex
        ⟨"http://x/53?MSPStoreType=image/gif", "x = 0", "x = 0", 36, 18⟩
      = Image.Mime
        ⟨"http://x/53?MSPStoreType=image/gif", "x = 0", "x = 0", 36, 18⟩
  ∧ Image.Mime
        ⟨"http://x/53?MSPStoreType=image/gif", "x = 0", "x = 0", 36, 18⟩
      = String.mk "image/gif".data :=
  mime_implementations_agree
    ⟨"http://x/53?MSPStoreType=image/gif", "x = 0", "x = 0", 36, 18⟩
    "x/53".data "image/gif".data rfl (by decide) (by decide)

end Wolfram
